import Mathlib

/-!
# ChromaCal — verification of the core subsystems

Shallow embedding of the ChromaCal sources:

* `src/utils/iccProfileGenerator.ts` — the binary ICC monitor-profile encoder;
* `src/components/SensorMode.tsx` — frame sampling, stability detection,
  exposure locking, reset, camera lifecycle;
* `src/services/geminiService.ts` — the analysis-oracle wrapper with its
  offline fallback;
* `src/components/PatternGenerator.tsx` — the measurement wizard.

JavaScript numbers are modelled as exact rationals (`ℚ`) and, where the code
only ever handles integers, as `ℤ`/`ℕ`; machine truncations (`>>>`, `& 0xFF`,
`Uint8Array` storage) are made explicit via `% 2^w`.  JS strings are modelled
as lists of UTF-16 code units (`List ℕ`); ASCII literals are embedded through
`strUnits`.
-/

namespace ChromaCal

/-! ## Binary writer helpers (`BinaryWriter` in `iccProfileGenerator.ts`) -/

/-- JavaScript's ToUint32 coercion, performed by `>>>` before shifting:
the value modulo 2^32. -/
def toUint32 (v : ℤ) : ℕ := (v % 4294967296).toNat

/-- `writeU8`: push `value & 0xFF`. -/
def writeU8 (v : ℤ) : List ℕ := [toUint32 v % 256]

/-- `writeU16`: push `(value >>> 8) & 0xFF` then `value & 0xFF` (big endian). -/
def writeU16 (v : ℤ) : List ℕ := [toUint32 v / 256 % 256, toUint32 v % 256]

/-- `writeU32`: four big-endian bytes `(value >>> 24) & 0xFF` … `value & 0xFF`. -/
def writeU32 (v : ℤ) : List ℕ :=
  [toUint32 v / 16777216 % 256, toUint32 v / 65536 % 256,
   toUint32 v / 256 % 256, toUint32 v % 256]

/-- `str.charCodeAt(i) || 0`: the i-th UTF-16 unit, `0` past the end
(`charCodeAt` yields `NaN` there, which `|| 0` turns into `0`). -/
def jsCharCode (s : String) (i : ℕ) : ℕ := ((s.data.get? i).map Char.toNat).getD 0

/-- `writeTagSig`: exactly four bytes, `charCodeAt(0..3) || 0`. -/
def writeTagSig (s : String) : List ℕ := (List.range 4).map (jsCharCode s)

/-- A JS string literal as its list of UTF-16 code units (all our literals are
ASCII, so `Char.toNat` is exact). -/
def strUnits (s : String) : List ℕ := s.data.map Char.toNat

/-- `writeString`: pushes the raw code units; the `% 256` makes explicit the
truncation every pushed value undergoes when `getBuffer` stores the array
into a `Uint8Array`. -/
def writeString (units : List ℕ) : List ℕ := units.map (· % 256)

/-- `writeFixed15_16`: s15.16 — `Math.floor(value)` as the high 16 bits and
`Math.floor((value - whole) * 65536)` as the low 16 bits. -/
def writeFixed15_16 (value : ℚ) : List ℕ :=
  let whole : ℤ := ⌊value⌋
  let fraction : ℤ := ⌊(value - (whole : ℚ)) * 65536⌋
  writeU16 whole ++ writeU16 fraction

/-- `writeXYZ`: three s15.16 numbers. -/
def writeXYZ (x y z : ℚ) : List ℕ :=
  writeFixed15_16 x ++ writeFixed15_16 y ++ writeFixed15_16 z

/-! ## Data model (`src/types.ts`) -/

/-- `RGB` from `types.ts`; JS numbers, so `ℤ` (the pipeline keeps them in
`[0,255]` but the type does not). -/
structure RGB where
  r : ℤ
  g : ℤ
  b : ℤ
deriving DecidableEq, Repr

/-- `MeasurementPoint` from `types.ts`. -/
structure MeasurementPoint where
  label : List ℕ
  targetColor : RGB
  measuredColor : Option RGB
deriving DecidableEq, Repr

/-- `CalibrationResult` from `types.ts`.  `contrastRatioVal` embeds the source
field `contrastRatio`. -/
structure CalibrationResult where
  profileName : List ℕ
  gamma : ℚ
  colorTemperature : List ℕ
  deltaE : ℚ
  redGain : ℚ
  greenGain : ℚ
  blueGain : ℚ
  contrastRatioVal : List ℕ
  feedback : List ℕ
deriving DecidableEq, Repr

/-- `CalibrationSettings` from `types.ts`. -/
structure CalibrationSettings where
  targetGamma : List ℕ
  targetWhitePoint : List ℕ
deriving DecidableEq, Repr

/-! ## The ICC profile encoder (`iccProfileGenerator.ts`) -/

/-- One row of the `sRGB_Matrix` object literal. -/
structure ChromaRow where
  x : ℚ
  y : ℚ
  z : ℚ
deriving DecidableEq

/-- `sRGB_Matrix` — standard sRGB primaries, D50 adapted. -/
structure SRGBMatrix where
  red : ChromaRow
  green : ChromaRow
  blue : ChromaRow

def sRGB_Matrix : SRGBMatrix :=
  { red   := ⟨0.436066, 0.222488, 0.013916⟩
    green := ⟨0.385147, 0.716873, 0.097076⟩
    blue  := ⟨0.143066, 0.060608, 0.714096⟩ }

/-- The `desc` tag data (`descWriter`): type sig, reserved, ASCII count
(`descStr.length + 1`), the string, a null terminator, 64 padding zeros. -/
def descData (result : CalibrationResult) : List ℕ :=
  let descStr : List ℕ :=
    if 0 < result.profileName.length then result.profileName
    else strUnits "ChromaCal Profile"
  writeTagSig "desc" ++ writeU32 0 ++ writeU32 (descStr.length + 1) ++
    writeString descStr ++ writeU8 0 ++ List.replicate 64 0

/-- The `cprt` tag data (`cprtWriter`). -/
def cprtData : List ℕ :=
  writeTagSig "text" ++ writeU32 0 ++
    writeString (strUnits "Copyright ZAP AI 2024") ++ writeU8 0

/-- The `wtpt` tag data (`wtptWriter`): standard D50 PCS white point. -/
def wtptData : List ℕ :=
  writeTagSig "XYZ " ++ writeU32 0 ++ writeXYZ 0.9642 1.0000 0.8249

/-- An `rXYZ`/`gXYZ`/`bXYZ` tag: the matrix row scaled by the channel gain. -/
def xyzTagData (row : ChromaRow) (gain : ℚ) : List ℕ :=
  writeTagSig "XYZ " ++ writeU32 0 ++
    writeXYZ (row.x * gain) (row.y * gain) (row.z * gain)

/-- `Math.round`: round half toward positive infinity. -/
def jsRound (q : ℚ) : ℤ := ⌊q + 1 / 2⌋

/-- The shared TRC tag data (`trcWriter`): `curv`, reserved, count 1
(simple gamma), then the u8.8 value `Math.round(gamma * 256)`. -/
def trcData (gamma : ℚ) : List ℕ :=
  let gammaVal : ℤ := jsRound (gamma * 256)
  writeTagSig "curv" ++ writeU32 0 ++ writeU32 1 ++ writeU16 gammaVal

/-- The `tags` array literal: signature plus data, in source order.  The three
TRC entries reuse the one `trcWriter` buffer. -/
def tagList (result : CalibrationResult) : List (String × List ℕ) :=
  [("desc", descData result),
   ("cprt", cprtData),
   ("wtpt", wtptData),
   ("rXYZ", xyzTagData sRGB_Matrix.red result.redGain),
   ("gXYZ", xyzTagData sRGB_Matrix.green result.greenGain),
   ("bXYZ", xyzTagData sRGB_Matrix.blue result.blueGain),
   ("rTRC", trcData result.gamma),
   ("gTRC", trcData result.gamma),
   ("bTRC", trcData result.gamma)]

/-- The six `new Date()` fields written into the header (the month is written
already incremented, as `getMonth() + 1`). -/
structure ProfileDate where
  year : ℕ
  month : ℕ
  day : ℕ
  hour : ℕ
  minute : ℕ
  second : ℕ

/-- The 128-byte header, field for field; the size field at offset 0 is the
placeholder `0`, patched after assembly. -/
def profileHeader (date : ProfileDate) : List ℕ :=
  writeU32 0 ++
  writeTagSig "lcms" ++
  writeU32 0x02100000 ++
  writeTagSig "mntr" ++
  writeTagSig "RGB " ++
  writeTagSig "XYZ " ++
  writeU16 date.year ++ writeU16 date.month ++ writeU16 date.day ++
  writeU16 date.hour ++ writeU16 date.minute ++ writeU16 date.second ++
  writeTagSig "acsp" ++
  writeTagSig "MSFT" ++
  writeU32 0 ++
  writeTagSig "ZAP " ++
  writeU32 0 ++
  writeU32 0 ++ writeU32 0 ++
  writeU32 0 ++
  writeXYZ 0.9642 1.0000 0.8249 ++
  writeTagSig "ZAP " ++
  List.replicate 44 0

/-- A 12-byte tag-table entry as recorded by the table-writing loop. -/
structure TagEntry where
  sig : String
  offset : ℕ
  size : ℕ
deriving DecidableEq, Repr

/-- Zero bytes needed after `n` data bytes to reach a 4-byte boundary
(the `while (len % 4 !== 0)` loops). -/
def padLen (n : ℕ) : ℕ := (4 - n % 4) % 4

/-- `align4 n` is the next multiple of 4 at or above `n` — the effect of
`while (currentOffset % 4 !== 0) currentOffset++`. -/
def align4 (n : ℕ) : ℕ := n + padLen n

/-- The entries produced by the table-writing `forEach`: each tag records the
running `currentOffset` and its unpadded data length; the offset then
advances by the data length, aligned up to 4. -/
def tableEntries : List (String × List ℕ) → ℕ → List TagEntry
  | [], _ => []
  | (sig, data) :: rest, currentOffset =>
    ⟨sig, currentOffset, data.length⟩ ::
      tableEntries rest (align4 (currentOffset + data.length))

/-- The 12 bytes of one table entry: sig, u32 offset, u32 length. -/
def entryBytes (e : TagEntry) : List ℕ :=
  writeTagSig e.sig ++ writeU32 (e.offset : ℤ) ++ writeU32 (e.size : ℤ)

/-- The serialized tag table. -/
def tableBytes : List TagEntry → List ℕ
  | [] => []
  | e :: rest => entryBytes e ++ tableBytes rest

/-- A tag's data followed by its zero padding to a 4-byte boundary
(the data-writing `forEach`, including the final tag). -/
def pad4 (data : List ℕ) : List ℕ := data ++ List.replicate (padLen data.length) 0

/-- All tag data blocks with their padding, in order. -/
def bodyBytes : List (String × List ℕ) → List ℕ
  | [] => []
  | (_, data) :: rest => pad4 data ++ bodyBytes rest

/-- The tag table of a result's profile; the first offset is
`128 + (4 + 12 * tags.length)` as in the source. -/
def profileTagTable (result : CalibrationResult) : List TagEntry :=
  let tags := tagList result
  tableEntries tags (128 + (4 + 12 * tags.length))

/-- The assembled byte stream before the size patch: header, tag count,
table, tag data. -/
def assembledProfile (result : CalibrationResult) (date : ProfileDate) : List ℕ :=
  let tags := tagList result
  profileHeader date ++ writeU32 (tags.length : ℤ) ++
    tableBytes (profileTagTable result) ++ bodyBytes tags

/-- `generateICCProfileBlob`: assemble, then patch the big-endian u32 at byte
offset 0 with the exact total length (`view.setUint32(0, totalSize, false)`).
The returned list is the byte content of the final `Blob`. -/
def generateICCProfileBlob (result : CalibrationResult) (date : ProfileDate) : List ℕ :=
  let finalBuffer := assembledProfile result date
  writeU32 (finalBuffer.length : ℤ) ++ finalBuffer.drop 4

/-- Read the big-endian u32 at byte offset `off`. -/
def readU32BE (l : List ℕ) (off : ℕ) : ℕ :=
  match l.drop off with
  | b0 :: b1 :: b2 :: b3 :: _ => ((b0 * 256 + b1) * 256 + b2) * 256 + b3
  | _ => 0

/-! ### Arithmetic and layout lemmas for the encoder -/

theorem toUint32_natCast (v : ℕ) : toUint32 (v : ℤ) = v % 4294967296 := by
  unfold toUint32
  omega

theorem readU32BE_writeU32 (v : ℕ) (rest : List ℕ) :
    readU32BE (writeU32 (v : ℤ) ++ rest) 0 = v % 4294967296 := by
  simp only [writeU32, toUint32_natCast, readU32BE, List.cons_append, List.drop_zero]
  omega

theorem length_writeU8 (v : ℤ) : (writeU8 v).length = 1 := rfl

theorem length_writeU16 (v : ℤ) : (writeU16 v).length = 2 := rfl

theorem length_writeU32 (v : ℤ) : (writeU32 v).length = 4 := rfl

theorem length_writeTagSig (s : String) : (writeTagSig s).length = 4 := by
  simp [writeTagSig]

theorem length_writeFixed15_16 (q : ℚ) : (writeFixed15_16 q).length = 4 := rfl

theorem length_writeXYZ (x y z : ℚ) : (writeXYZ x y z).length = 12 := rfl

theorem length_profileHeader (date : ProfileDate) : (profileHeader date).length = 128 := by
  simp [profileHeader, length_writeU16, length_writeU32, length_writeTagSig,
    length_writeXYZ]

theorem padLen_lt_four (n : ℕ) : padLen n < 4 := by
  unfold padLen
  omega

theorem align4_emod (n : ℕ) : align4 n % 4 = 0 := by
  unfold align4 padLen
  omega

theorem le_align4 (n : ℕ) : n ≤ align4 n := by
  unfold align4
  omega

theorem align4_add_left {c : ℕ} (n : ℕ) (h : c % 4 = 0) :
    align4 (c + n) = c + align4 n := by
  unfold align4 padLen
  omega

theorem length_pad4 (d : List ℕ) : (pad4 d).length = align4 d.length := by
  simp [pad4, align4]

theorem length_entryBytes (e : TagEntry) : (entryBytes e).length = 12 := by
  simp [entryBytes, length_writeTagSig, length_writeU32]

theorem length_tableBytes (es : List TagEntry) :
    (tableBytes es).length = 12 * es.length := by
  induction es with
  | nil => rfl
  | cons e rest ih =>
    simp [tableBytes, length_entryBytes, ih]
    ring

theorem tableEntries_sig_map (tags : List (String × List ℕ)) (cur : ℕ) :
    (tableEntries tags cur).map TagEntry.sig = tags.map Prod.fst := by
  induction tags generalizing cur with
  | nil => rfl
  | cons t rest ih =>
    obtain ⟨sig, data⟩ := t
    simp [tableEntries, ih]

theorem length_tableEntries (tags : List (String × List ℕ)) (cur : ℕ) :
    (tableEntries tags cur).length = tags.length := by
  have h := congrArg List.length (tableEntries_sig_map tags cur)
  simpa using h

theorem tableEntries_offset_emod (tags : List (String × List ℕ)) :
    ∀ cur, cur % 4 = 0 → ∀ e ∈ tableEntries tags cur, e.offset % 4 = 0 := by
  induction tags with
  | nil =>
    intro cur _ e he
    simp [tableEntries] at he
  | cons t rest ih =>
    intro cur hc e he
    obtain ⟨sig, data⟩ := t
    simp only [tableEntries, List.mem_cons] at he
    rcases he with rfl | he
    · exact hc
    · exact ih _ (align4_emod _) e he

theorem tableEntries_offset_le (tags : List (String × List ℕ)) :
    ∀ cur, ∀ e ∈ tableEntries tags cur, cur ≤ e.offset := by
  induction tags with
  | nil =>
    intro cur e he
    simp [tableEntries] at he
  | cons t rest ih =>
    intro cur e he
    obtain ⟨sig, data⟩ := t
    simp only [tableEntries, List.mem_cons] at he
    rcases he with rfl | he
    · exact le_refl _
    · exact le_trans (le_trans (Nat.le_add_right cur data.length) (le_align4 _))
        (ih _ e he)

/-- Core layout lemma: when a prefix of length `cur` (a multiple of 4) precedes
the serialized tag bodies, every table entry records its tag's unpadded data
length, sits on a 4-byte boundary, and the `align4`-sized slice of the stream
at its recorded offset is exactly the tag's data followed by its zero pad. -/
theorem bodyBytes_layout (tags : List (String × List ℕ)) :
    ∀ (cur : ℕ) (pre : List ℕ), pre.length = cur → cur % 4 = 0 →
    List.Forall₂ (fun (e : TagEntry) (t : String × List ℕ) =>
        e.size = t.2.length ∧ e.offset % 4 = 0 ∧
        ((pre ++ bodyBytes tags).drop e.offset).take (align4 e.size) = pad4 t.2)
      (tableEntries tags cur) tags := by
  induction tags with
  | nil =>
    intro cur pre _ _
    exact List.Forall₂.nil
  | cons t rest ih =>
    intro cur pre h1 h2
    obtain ⟨sig, data⟩ := t
    refine List.Forall₂.cons ⟨rfl, h2, ?_⟩ ?_
    · show ((pre ++ bodyBytes ((sig, data) :: rest)).drop cur).take
        (align4 data.length) = pad4 data
      rw [show bodyBytes ((sig, data) :: rest) = pad4 data ++ bodyBytes rest from rfl]
      rw [List.drop_left' h1, List.take_left' (length_pad4 data)]
    · have h3 : (pre ++ pad4 data).length = align4 (cur + data.length) := by
        rw [List.length_append, h1, length_pad4, align4_add_left _ h2]
      have h4 := ih (align4 (cur + data.length)) (pre ++ pad4 data) h3 (align4_emod _)
      have h5 : (pre ++ pad4 data) ++ bodyBytes rest =
          pre ++ bodyBytes ((sig, data) :: rest) := by
        rw [show bodyBytes ((sig, data) :: rest) = pad4 data ++ bodyBytes rest from rfl,
          List.append_assoc]
      rw [h5] at h4
      exact h4

/-- The patched buffer agrees with the assembled buffer from byte 4 on. -/
theorem generateICC_drop (result : CalibrationResult) (date : ProfileDate)
    {off : ℕ} (h : 4 ≤ off) :
    (generateICCProfileBlob result date).drop off =
      (assembledProfile result date).drop off := by
  simp only [generateICCProfileBlob]
  obtain ⟨k, rfl⟩ := Nat.exists_eq_add_of_le h
  have h1 := @List.drop_append ℕ (writeU32 ((assembledProfile result date).length : ℤ))
    ((assembledProfile result date).drop 4) k
  rw [length_writeU32] at h1
  rw [h1, List.drop_drop]

theorem length_assembledProfile_ge (result : CalibrationResult) (date : ProfileDate) :
    128 ≤ (assembledProfile result date).length := by
  simp only [assembledProfile, List.length_append, length_profileHeader]
  omega

theorem length_generateICC (result : CalibrationResult) (date : ProfileDate) :
    (generateICCProfileBlob result date).length =
      (assembledProfile result date).length := by
  have h := length_assembledProfile_ge result date
  simp only [generateICCProfileBlob, List.length_append, length_writeU32,
    List.length_drop]
  omega

/-- C1.  For every `CalibrationResult`, the buffer produced by
`generateICCProfileBlob` satisfies: the big-endian u32 at byte offset 0 equals
the exact total byte length of the buffer (whenever that length fits in 32
bits, which the `setUint32` patch presupposes), and every offset field
recorded in the tag table is a multiple of 4. -/
theorem generateICC_size_field_and_offset_alignment
    (result : CalibrationResult) (date : ProfileDate) :
    ((generateICCProfileBlob result date).length < 4294967296 →
      readU32BE (generateICCProfileBlob result date) 0 =
        (generateICCProfileBlob result date).length) ∧
    ∀ e ∈ profileTagTable result, e.offset % 4 = 0 := by
  constructor
  · intro h
    rw [length_generateICC] at h
    calc readU32BE (generateICCProfileBlob result date) 0
        = (assembledProfile result date).length % 4294967296 := by
          simp only [generateICCProfileBlob]
          exact readU32BE_writeU32 _ _
      _ = (assembledProfile result date).length := Nat.mod_eq_of_lt h
      _ = (generateICCProfileBlob result date).length :=
          (length_generateICC result date).symm
  · intro e he
    have h9 : (tagList result).length = 9 := rfl
    have hc : (128 + (4 + 12 * (tagList result).length)) % 4 = 0 := by
      rw [h9]
    exact tableEntries_offset_emod _ _ hc e he

/-- A concrete calibration result used to instantiate the encoder theorems. -/
def witnessResult : CalibrationResult :=
  { profileName := [], gamma := 2.2, colorTemperature := strUnits "6500K",
    deltaE := 0, redGain := 1, greenGain := 1, blueGain := 1,
    contrastRatioVal := strUnits "N/A", feedback := [] }

/-- A concrete creation date used to instantiate the encoder theorems. -/
def witnessDate : ProfileDate := ⟨2024, 1, 2, 3, 4, 5⟩

set_option maxRecDepth 100000 in
/-- Witness for C1: at a concrete result and date the buffer is 496 bytes,
below 2^32, and the size field at offset 0 reads back exactly 496. -/
theorem generateICC_size_field_witness :
    (generateICCProfileBlob witnessResult witnessDate).length < 4294967296 ∧
    readU32BE (generateICCProfileBlob witnessResult witnessDate) 0 =
      (generateICCProfileBlob witnessResult witnessDate).length :=
  ⟨by decide,
   (generateICC_size_field_and_offset_alignment witnessResult witnessDate).1
     (by decide)⟩

/-- C2.  For every `CalibrationResult`: the tag table has exactly the 9
entries `desc, cprt, wtpt, rXYZ, gXYZ, bXYZ, rTRC, gTRC, bTRC` in that order;
each entry's length field is the byte length of that tag's data excluding
alignment padding; the tag's data bytes appear in the final buffer starting
exactly at the entry's recorded offset; and zero bytes pad each tag's data so
the next tag's data begins on a 4-byte boundary. -/
theorem generateICC_tag_table_layout (result : CalibrationResult) (date : ProfileDate) :
    (profileTagTable result).map TagEntry.sig =
      ["desc", "cprt", "wtpt", "rXYZ", "gXYZ", "bXYZ", "rTRC", "gTRC", "bTRC"] ∧
    List.Forall₂ (fun (e : TagEntry) (t : String × List ℕ) =>
        e.size = t.2.length ∧
        ((generateICCProfileBlob result date).drop e.offset).take e.size = t.2 ∧
        ((generateICCProfileBlob result date).drop (e.offset + e.size)).take
            (padLen e.size) = List.replicate (padLen e.size) 0 ∧
        (e.offset + e.size + padLen e.size) % 4 = 0)
      (profileTagTable result) (tagList result) := by
  have h9 : (tagList result).length = 9 := rfl
  constructor
  · simp only [profileTagTable]
    rw [tableEntries_sig_map]
    rfl
  · -- instantiate the layout lemma with the 240-byte prefix
    have hlen : (profileHeader date ++ (writeU32 ((tagList result).length : ℤ) ++
        tableBytes (profileTagTable result))).length =
        128 + (4 + 12 * (tagList result).length) := by
      simp only [List.length_append, length_profileHeader, length_writeU32,
        length_tableBytes, profileTagTable, length_tableEntries]
    have hmod : (128 + (4 + 12 * (tagList result).length)) % 4 = 0 := by
      rw [h9]
    have hbase := bodyBytes_layout (tagList result)
      (128 + (4 + 12 * (tagList result).length))
      (profileHeader date ++ (writeU32 ((tagList result).length : ℤ) ++
        tableBytes (profileTagTable result))) hlen hmod
    have hassm : profileHeader date ++ (writeU32 ((tagList result).length : ℤ) ++
        tableBytes (profileTagTable result)) ++ bodyBytes (tagList result) =
        assembledProfile result date := by
      simp [assembledProfile, List.append_assoc]
    rw [hassm] at hbase
    have hfold : tableEntries (tagList result) (128 + (4 + 12 * (tagList result).length)) =
        profileTagTable result := rfl
    rw [hfold] at hbase
    rw [List.forall₂_iff_get] at hbase ⊢
    obtain ⟨hl, hbase⟩ := hbase
    refine ⟨hl, fun i h₁ h₂ => ?_⟩
    obtain ⟨hsize, hmod4, htake⟩ := hbase i h₁ h₂
    have hmem : (profileTagTable result).get ⟨i, h₁⟩ ∈
        tableEntries (tagList result) (128 + (4 + 12 * (tagList result).length)) := by
      rw [hfold]
      exact List.get_mem _ i h₁
    have hoff : 128 + (4 + 12 * (tagList result).length) ≤
        ((profileTagTable result).get ⟨i, h₁⟩).offset :=
      tableEntries_offset_le _ _ _ hmem
    have hoff4 : 4 ≤ ((profileTagTable result).get ⟨i, h₁⟩).offset :=
      le_trans (by rw [h9]; norm_num) hoff
    refine ⟨hsize, ?_, ?_, ?_⟩
    · -- the data bytes sit at the recorded offset
      rw [generateICC_drop result date hoff4]
      have h5 : ((assembledProfile result date).drop
            ((profileTagTable result).get ⟨i, h₁⟩).offset).take
            ((profileTagTable result).get ⟨i, h₁⟩).size =
          (((assembledProfile result date).drop
            ((profileTagTable result).get ⟨i, h₁⟩).offset).take
            (align4 ((profileTagTable result).get ⟨i, h₁⟩).size)).take
            ((profileTagTable result).get ⟨i, h₁⟩).size := by
        rw [List.take_take, inf_eq_left.mpr (le_align4 _)]
      rw [h5, htake]
      exact List.take_left' hsize.symm
    · -- the padding after the data bytes is all zeros
      rw [generateICC_drop result date (le_trans hoff4 (Nat.le_add_right _ _))]
      have h6 := congrArg (List.drop ((profileTagTable result).get ⟨i, h₁⟩).size) htake
      rw [List.drop_take, List.drop_drop] at h6
      have h7 : align4 ((profileTagTable result).get ⟨i, h₁⟩).size -
          ((profileTagTable result).get ⟨i, h₁⟩).size =
          padLen ((profileTagTable result).get ⟨i, h₁⟩).size := by
        unfold align4
        omega
      rw [h7] at h6
      rw [h6, pad4, List.drop_left' hsize.symm, hsize]
    · have h8 := align4_emod ((profileTagTable result).get ⟨i, h₁⟩).size
      unfold align4 at h8
      omega

/-- C3.  For every `CalibrationResult` with unit gains and gamma 2.2, the
encoded `rXYZ`/`gXYZ`/`bXYZ` tag payloads are the unscaled standard sRGB-D50
primary rows (0.436066/0.222488/0.013916, 0.385147/0.716873/0.097076,
0.143066/0.060608/0.714096 in s15.16), and the `rTRC` tag is a `curv` tag
with curve-point count 1 whose u8.8 value is `round(2.2 * 256) = 563`. -/
theorem generateICC_neutral_tags (result : CalibrationResult)
    (hr : result.redGain = 1) (hg : result.greenGain = 1) (hb : result.blueGain = 1)
    (hgam : result.gamma = 2.2) :
    (tagList result).get? 3 =
      some ("rXYZ", writeTagSig "XYZ " ++ writeU32 0 ++
        writeXYZ 0.436066 0.222488 0.013916) ∧
    (tagList result).get? 4 =
      some ("gXYZ", writeTagSig "XYZ " ++ writeU32 0 ++
        writeXYZ 0.385147 0.716873 0.097076) ∧
    (tagList result).get? 5 =
      some ("bXYZ", writeTagSig "XYZ " ++ writeU32 0 ++
        writeXYZ 0.143066 0.060608 0.714096) ∧
    (tagList result).get? 6 =
      some ("rTRC", writeTagSig "curv" ++ writeU32 0 ++ writeU32 1 ++ writeU16 563) ∧
    jsRound (result.gamma * 256) = 563 := by
  have h563 : jsRound ((2.2 : ℚ) * 256) = 563 := by
    norm_num [jsRound]
  refine ⟨?_, ?_, ?_, ?_, by rw [hgam]; exact h563⟩
  · simp [tagList, xyzTagData, sRGB_Matrix, hr]
  · simp [tagList, xyzTagData, sRGB_Matrix, hg]
  · simp [tagList, xyzTagData, sRGB_Matrix, hb]
  · simp [tagList, trcData, hgam, h563]

/-- Witness for C3: at the concrete neutral result the `rTRC` entry is a
`curv` tag with count 1 and value 563. -/
theorem generateICC_neutral_tags_witness :
    (tagList witnessResult).get? 6 =
      some ("rTRC", writeTagSig "curv" ++ writeU32 0 ++ writeU32 1 ++ writeU16 563) :=
  (generateICC_neutral_tags witnessResult rfl rfl rfl rfl).2.2.2.1

/-! ## Stability detection (`SensorMode.tsx`, `processFrame`) -/

/-- `history.push(newRGB); if (history.length > 10) history.shift();` —
append the new sample, then drop the oldest when the window exceeds 10. -/
def pushSample (history : List RGB) (s : RGB) : List RGB :=
  let h := history ++ [s]
  if 10 < h.length then h.tail else h

/-- The running min/max accumulator of the stability scan. -/
structure ChannelStats where
  minR : ℤ
  maxR : ℤ
  minG : ℤ
  maxG : ℤ
  minB : ℤ
  maxB : ℤ
deriving DecidableEq, Repr

/-- The `for (const val of history)` scan, from a given accumulator. -/
def stabilityScanAux (history : List RGB) (acc : ChannelStats) : ChannelStats :=
  history.foldl (fun a val =>
    ⟨min a.minR val.r, max a.maxR val.r, min a.minG val.g, max a.maxG val.g,
     min a.minB val.b, max a.maxB val.b⟩) acc

/-- The scan with the source's initial values
`minR = 255, maxR = 0, minG = 255, maxG = 0, minB = 255, maxB = 0`. -/
def stabilityScan (history : List RGB) : ChannelStats :=
  stabilityScanAux history ⟨255, 0, 255, 0, 255, 0⟩

/-- `const variance = Math.max(maxR - minR, maxG - minG, maxB - minB)`. -/
def variance (history : List RGB) : ℤ :=
  let s := stabilityScan history
  max (s.maxR - s.minR) (max (s.maxG - s.minG) (s.maxB - s.minB))

/-- The value passed to `setIsStable` after a sample append:
`variance < 6` once the window holds at least 5 samples, `false` below. -/
def stableFlag (history : List RGB) : Bool :=
  if 5 ≤ history.length then decide (variance history < 6) else false

/-- An RGB sample on the 0–255 scale. -/
def rgbInRange (v : RGB) : Prop :=
  0 ≤ v.r ∧ v.r ≤ 255 ∧ 0 ≤ v.g ∧ v.g ≤ 255 ∧ 0 ≤ v.b ∧ v.b ≤ 255

instance (v : RGB) : Decidable (rgbInRange v) := by
  unfold rgbInRange
  infer_instance

/-- Follows the claim's words: the maximum of a channel across the window
(head-seeded fold, no artificial initial value). -/
def specChanMax (f : RGB → ℤ) : List RGB → ℤ
  | [] => 0
  | v :: rest => rest.foldl (fun a x => max a (f x)) (f v)

/-- Follows the claim's words: the minimum of a channel across the window. -/
def specChanMin (f : RGB → ℤ) : List RGB → ℤ
  | [] => 0
  | v :: rest => rest.foldl (fun a x => min a (f x)) (f v)

/-- Follows the claim's words: the maximum over the three channels of
(channel max − channel min) across the whole window. -/
def specMaxChannelRange (history : List RGB) : ℤ :=
  max (specChanMax RGB.r history - specChanMin RGB.r history)
    (max (specChanMax RGB.g history - specChanMin RGB.g history)
      (specChanMax RGB.b history - specChanMin RGB.b history))

theorem foldl_max_shift (l : List ℤ) : ∀ i j : ℤ,
    l.foldl max (max i j) = max i (l.foldl max j) := by
  induction l with
  | nil => intro i j; rfl
  | cons x xs ih =>
    intro i j
    simp only [List.foldl_cons, max_assoc, ih]

theorem foldl_min_shift (l : List ℤ) : ∀ i j : ℤ,
    l.foldl min (min i j) = min i (l.foldl min j) := by
  induction l with
  | nil => intro i j; rfl
  | cons x xs ih =>
    intro i j
    simp only [List.foldl_cons, min_assoc, ih]

theorem foldl_max_le_of_le (l : List ℤ) : ∀ {j b : ℤ}, j ≤ b →
    (∀ x ∈ l, x ≤ b) → l.foldl max j ≤ b := by
  induction l with
  | nil => intro j b hj _; exact hj
  | cons x xs ih =>
    intro j b hj hb
    simp only [List.foldl_cons]
    exact ih (max_le hj (hb x (List.mem_cons_self x xs)))
      (fun y hy => hb y (List.mem_cons_of_mem x hy))

theorem le_foldl_min_of_le (l : List ℤ) : ∀ {j b : ℤ}, b ≤ j →
    (∀ x ∈ l, b ≤ x) → b ≤ l.foldl min j := by
  induction l with
  | nil => intro j b hj _; exact hj
  | cons x xs ih =>
    intro j b hj hb
    simp only [List.foldl_cons]
    exact ih (le_min hj (hb x (List.mem_cons_self x xs)))
      (fun y hy => hb y (List.mem_cons_of_mem x hy))

theorem stabilityScanAux_eq (history : List RGB) : ∀ acc : ChannelStats,
    stabilityScanAux history acc =
      ⟨(history.map RGB.r).foldl min acc.minR, (history.map RGB.r).foldl max acc.maxR,
       (history.map RGB.g).foldl min acc.minG, (history.map RGB.g).foldl max acc.maxG,
       (history.map RGB.b).foldl min acc.minB, (history.map RGB.b).foldl max acc.maxB⟩ := by
  induction history with
  | nil => intro acc; rfl
  | cons v rest ih =>
    intro acc
    simp only [stabilityScanAux, List.foldl_cons, List.map_cons] at ih ⊢
    exact ih _

theorem le_foldl_max (l : List ℤ) : ∀ j : ℤ, j ≤ l.foldl max j := by
  induction l with
  | nil => intro j; exact le_refl j
  | cons x xs ih =>
    intro j
    exact le_trans (le_max_left j x) (ih (max j x))

theorem foldl_min_le (l : List ℤ) : ∀ j : ℤ, l.foldl min j ≤ j := by
  induction l with
  | nil => intro j; exact le_refl j
  | cons x xs ih =>
    intro j
    exact le_trans (ih (min j x)) (min_le_left j x)

theorem scan_max_channel (f : RGB → ℤ) (v : RGB) (rest : List RGB)
    (h0 : 0 ≤ f v) :
    ((v :: rest).map f).foldl max 0 = specChanMax f (v :: rest) := by
  rw [List.map_cons, List.foldl_cons, foldl_max_shift,
    max_eq_right (le_trans h0 (le_foldl_max _ _)), List.foldl_map]
  rfl

theorem scan_min_channel (f : RGB → ℤ) (v : RGB) (rest : List RGB)
    (h255 : f v ≤ 255) :
    ((v :: rest).map f).foldl min 255 = specChanMin f (v :: rest) := by
  rw [List.map_cons, List.foldl_cons, foldl_min_shift,
    min_eq_right (le_trans (foldl_min_le _ _) h255), List.foldl_map]
  rfl

/-- With every sample on the 0–255 scale, the source's 255/0-seeded scan
computes the true per-channel minima and maxima of a nonempty window. -/
theorem stabilityScan_eq_spec (history : List RGB) (hne : history ≠ [])
    (hb : ∀ v ∈ history, rgbInRange v) :
    stabilityScan history =
      ⟨specChanMin RGB.r history, specChanMax RGB.r history,
       specChanMin RGB.g history, specChanMax RGB.g history,
       specChanMin RGB.b history, specChanMax RGB.b history⟩ := by
  obtain ⟨v, rest, rfl⟩ := List.exists_cons_of_ne_nil hne
  obtain ⟨hr0, hr1, hg0, hg1, hb0, hb1⟩ := hb v (List.mem_cons_self v rest)
  rw [stabilityScan, stabilityScanAux_eq]
  rw [scan_min_channel RGB.r v rest hr1, scan_max_channel RGB.r v rest hr0,
    scan_min_channel RGB.g v rest hg1, scan_max_channel RGB.g v rest hg0,
    scan_min_channel RGB.b v rest hb1, scan_max_channel RGB.b v rest hb0]

/-- On nonempty in-range windows the source's `variance` is exactly the
claim's maximum per-channel range. -/
theorem variance_eq_spec (history : List RGB) (hne : history ≠ [])
    (hb : ∀ v ∈ history, rgbInRange v) :
    variance history = specMaxChannelRange history := by
  rw [variance, stabilityScan_eq_spec history hne hb]
  rfl

/-- C4.  After every sample append the detector keeps at most the 10 most
recent samples, discarding the oldest on overflow; it reports
`stable = false` whenever the window holds fewer than 5 samples, and with 5
or more it reports `stable = true` iff the maximum over the three channels of
(channel max − channel min) across the whole window is strictly below 6. -/
theorem stability_detector_contract (history : List RGB) (s : RGB) :
    (history.length ≤ 10 → (pushSample history s).length ≤ 10) ∧
    (history.length = 10 → pushSample history s = history.tail ++ [s]) ∧
    (history.length < 10 → pushSample history s = history ++ [s]) ∧
    ((pushSample history s).length < 5 → stableFlag (pushSample history s) = false) ∧
    (5 ≤ (pushSample history s).length →
      (∀ v ∈ pushSample history s, rgbInRange v) →
      (stableFlag (pushSample history s) = true ↔
        specMaxChannelRange (pushSample history s) < 6)) := by
  refine ⟨?_, ?_, ?_, ?_, ?_⟩
  · intro h
    simp only [pushSample]
    split_ifs with hlen
    · simp only [List.length_append, List.length_singleton] at hlen
      simp only [List.length_tail, List.length_append, List.length_singleton]
      omega
    · simp only [List.length_append, List.length_singleton] at hlen ⊢
      omega
  · intro h10
    have hne : history ≠ [] := by
      intro hnil
      rw [hnil] at h10
      simp at h10
    have hcond : 10 < (history ++ [s]).length := by
      simp only [List.length_append, List.length_singleton]
      omega
    simp only [pushSample]
    rw [if_pos hcond, List.tail_append_of_ne_nil hne]
  · intro hlt
    have hcond : ¬ 10 < (history ++ [s]).length := by
      simp only [List.length_append, List.length_singleton]
      omega
    simp only [pushSample]
    rw [if_neg hcond]
  · intro hlen
    simp only [stableFlag]
    rw [if_neg (by omega)]
  · intro hlen hb
    have hne : pushSample history s ≠ [] := by
      intro h
      rw [h] at hlen
      simp at hlen
    simp only [stableFlag]
    rw [if_pos hlen, variance_eq_spec _ hne hb]
    exact decide_eq_true_iff

/-- A concrete 4-sample window. -/
def witnessHistory : List RGB :=
  [⟨100, 100, 100⟩, ⟨101, 100, 100⟩, ⟨100, 102, 100⟩, ⟨100, 100, 103⟩]

/-- Witness for C4: appending a fifth nearby sample keeps the window within
capacity and the detector reports stable. -/
theorem stability_detector_witness :
    (pushSample witnessHistory ⟨100, 100, 100⟩).length ≤ 10 ∧
    stableFlag (pushSample witnessHistory ⟨100, 100, 100⟩) = true :=
  ⟨(stability_detector_contract witnessHistory ⟨100, 100, 100⟩).1 (by decide),
   ((stability_detector_contract witnessHistory ⟨100, 100, 100⟩).2.2.2.2
      (by decide) (by decide)).mpr (by decide)⟩

/-! ## Session state, exposure locking and reset (`SensorMode.tsx`) -/

/-- `calibrationStage` values. -/
inductive CalibrationStage where
  | SETUP
  | MEASURING
deriving DecidableEq, Repr

/-- One track of the acquired `MediaStream`. -/
structure MediaTrack where
  id : ℕ
  stopped : Bool
deriving DecidableEq, Repr

/-- The `SensorMode` React state relevant to locking, reset and teardown.
`committedMeasurements` is the host `App`'s `measurements` state, which the
component's handlers never touch; it is carried here so frame conditions can
mention it. -/
structure SensorState where
  stream : Option (List MediaTrack)
  measuredRGB : RGB
  isFrozen : Bool
  isStable : Bool
  calibrationStage : CalibrationStage
  isHardwareLocked : Bool
  referenceWhite : Option RGB
  history : List RGB
  committedMeasurements : List MeasurementPoint
deriving Repr

/-- `ExtendedMediaTrackCapabilities`: each mode list is absent when the
device does not report it (`track.getCapabilities()` may also be missing,
in which case `{}` — all fields absent — is used). -/
structure TrackCapabilities where
  exposureMode : Option (List String)
  whiteBalanceMode : Option (List String)
  focusMode : Option (List String)

/-- `ExtendedMediaTrackSettings` fields read back for manual locking. -/
structure TrackSettings where
  exposureTime : Option ℚ
  iso : Option ℚ
  colorTemperature : Option ℚ
  focusDistance : Option ℚ

/-- The `advancedConstraints` object assembled by `handleLockExposure`. -/
structure AdvancedConstraints where
  exposureMode : Option String
  exposureTime : Option ℚ
  iso : Option ℚ
  whiteBalanceMode : Option String
  colorTemperature : Option ℚ
  focusMode : Option String
  focusDistance : Option ℚ

/-- The empty `{}` constraints object. -/
def emptyConstraints : AdvancedConstraints :=
  ⟨none, none, none, none, none, none, none⟩

/-- JS truthiness of an optional numeric field (`if (settings.x)`):
absent and `0` are falsy. -/
def jsOptTruthy (v : Option ℚ) : Bool :=
  match v with
  | some q => decide (q ≠ 0)
  | none => false

/-- `caps.m && caps.m.includes('manual')`. -/
def supportsManual (modes : Option (List String)) : Bool :=
  match modes with
  | some l => l.contains "manual"
  | none => false

/-- `handleLockExposure`.  With no stream the handler returns at once.
Otherwise it records `referenceWhite := measuredRGB`, then inside `try`:
builds `advancedConstraints` from whichever of exposure / white balance /
focus advertises a `manual` mode (copying the truthy current settings); if at
least one does (`hasAdvanced`) and `track.applyConstraints` exists, it awaits
the apply — on success `isHardwareLocked := true`; if none does, it warns and
sets `isHardwareLocked := false`; in both cases it sets
`calibrationStage := MEASURING`.  The `catch` block swallows any exception
from the apply and still sets `calibrationStage := MEASURING`, leaving
`isHardwareLocked` untouched.  Returns the new state and the constraints
passed to `applyConstraints` (if it was invoked). -/
def handleLockExposure (st : SensorState) (caps : TrackCapabilities)
    (settings : TrackSettings) (hasApply : Bool) (applyThrows : Bool) :
    SensorState × Option AdvancedConstraints :=
  match st.stream with
  | none => (st, none)
  | some _ =>
    let st1 := { st with referenceWhite := some st.measuredRGB }
    let expManual := supportsManual caps.exposureMode
    let wbManual := supportsManual caps.whiteBalanceMode
    let focManual := supportsManual caps.focusMode
    let c1 := if expManual then
        { emptyConstraints with
          exposureMode := some "manual"
          exposureTime :=
            if jsOptTruthy settings.exposureTime then settings.exposureTime else none
          iso := if jsOptTruthy settings.iso then settings.iso else none }
      else emptyConstraints
    let c2 := if wbManual then
        { c1 with
          whiteBalanceMode := some "manual"
          colorTemperature :=
            if jsOptTruthy settings.colorTemperature then settings.colorTemperature
            else none }
      else c1
    let c3 := if focManual then
        { c2 with
          focusMode := some "manual"
          focusDistance :=
            if jsOptTruthy settings.focusDistance then settings.focusDistance
            else none }
      else c2
    let hasAdvanced := expManual || wbManual || focManual
    if hasAdvanced && hasApply then
      if applyThrows then
        ({ st1 with calibrationStage := .MEASURING }, some c3)
      else
        ({ st1 with isHardwareLocked := true, calibrationStage := .MEASURING },
          some c3)
    else
      ({ st1 with isHardwareLocked := false, calibrationStage := .MEASURING }, none)

/-- The Reset button handler: `onClick={() => setCalibrationStage('SETUP')}`
— the only state update is the stage. -/
def resetAction (st : SensorState) : SensorState :=
  { st with calibrationStage := .SETUP }

/-- `stopCamera`, as closed over one render's `stream` binding: stops every
track of the stream it sees, a no-op when that captured value is `null`. -/
def stopCamera (capturedStream : Option (List MediaTrack))
    (tracks : List MediaTrack) : List MediaTrack :=
  match capturedStream with
  | none => tracks
  | some s => tracks.map (fun t => if t ∈ s then { t with stopped := true } else t)

/-- The camera lifecycle of `SensorMode`:
`useEffect(() => { startCamera(); return () => stopCamera(); }, [])`.
The effect body runs once, at mount, when the `stream` state is still `null`;
its cleanup closure captures that first render's `stopCamera`, whose `stream`
binding is `null`.  `setStream(mediaStream)` then re-renders with the
acquired stream, but the `[]`-dependency effect never re-registers its
cleanup.  At unmount React runs the registered (first-render) cleanup, so
`stopCamera` reads the captured `null` stream and stops nothing.  The value
returned is the final state of the session's tracks. -/
def sensorCameraLifecycle (acquired : List MediaTrack) : List MediaTrack :=
  let streamAtFirstRender : Option (List MediaTrack) := none
  let _streamAfterStart : Option (List MediaTrack) := some acquired
  stopCamera streamAtFirstRender acquired

/-- A session state with an active one-track stream, ready to lock. -/
def lockState : SensorState :=
  { stream := some [⟨0, false⟩], measuredRGB := ⟨210, 205, 200⟩,
    isFrozen := false, isStable := true, calibrationStage := .SETUP,
    isHardwareLocked := false, referenceWhite := none, history := [],
    committedMeasurements := [] }

/-- Capabilities offering manual exposure but only continuous white balance
and focus. -/
def mixedCaps : TrackCapabilities :=
  ⟨some ["continuous", "manual"], some ["continuous"], some ["continuous"]⟩

/-- Capabilities with no mode lists reported at all. -/
def noManualCaps : TrackCapabilities := ⟨none, none, none⟩

/-- Settings with no readable current values. -/
def emptySettings : TrackSettings := ⟨none, none, none, none⟩

/-- Counterexample to C6 as stated: with manual control unsupported for white
balance (and focus) but supported for exposure, the lock outcome is
`hardwareLocked = true`, not the claimed degraded `hardwareLocked = false`. -/
theorem handleLockExposure_partial_lock_counterexample :
    supportsManual mixedCaps.whiteBalanceMode = false ∧
    (handleLockExposure lockState mixedCaps emptySettings true
        false).1.isHardwareLocked = true ∧
    (handleLockExposure lockState mixedCaps emptySettings true
        false).1.calibrationStage = .MEASURING := by
  refine ⟨rfl, rfl, rfl⟩

/-- C6 (amended).  Given an active stream, a lock request always records
`referenceWhite` as the current sample, always transitions the session to
MEASURING (any exception during constraint application is swallowed by the
`catch`), and never touches the committed measurements.  The hardware flag,
however, is not degraded to `false` whenever some one parameter lacks manual
control: it becomes `true` exactly when at least one of exposure, white
balance or focus advertises `manual`, `applyConstraints` exists and the apply
does not throw; it becomes `false` when no parameter advertises `manual` or
`applyConstraints` is missing; and when the apply throws it keeps its
previous value. -/
theorem handleLockExposure_contract (st : SensorState) (caps : TrackCapabilities)
    (settings : TrackSettings) (hasApply applyThrows : Bool)
    (hstream : st.stream ≠ none) :
    ((handleLockExposure st caps settings hasApply applyThrows).1.calibrationStage
        = .MEASURING) ∧
    ((handleLockExposure st caps settings hasApply applyThrows).1.referenceWhite
        = some st.measuredRGB) ∧
    ((handleLockExposure st caps settings hasApply
        applyThrows).1.committedMeasurements = st.committedMeasurements) ∧
    ((handleLockExposure st caps settings hasApply applyThrows).1.isHardwareLocked =
      if (supportsManual caps.exposureMode || supportsManual caps.whiteBalanceMode ||
          supportsManual caps.focusMode) && hasApply then
        (if applyThrows then st.isHardwareLocked else true)
      else false) := by
  obtain ⟨s, hs⟩ := Option.ne_none_iff_exists'.mp hstream
  simp only [handleLockExposure, hs]
  split_ifs <;> simp

/-- Witness for the amended C6: with no manual capability at all the session
still moves to MEASURING and the flag is set to `false`. -/
theorem handleLockExposure_contract_witness :
    (handleLockExposure lockState noManualCaps emptySettings false
        false).1.calibrationStage = .MEASURING ∧
    (handleLockExposure lockState noManualCaps emptySettings false
        false).1.isHardwareLocked = false := by
  have h := handleLockExposure_contract lockState noManualCaps emptySettings
    false false (by simp [lockState])
  exact ⟨h.1, by simpa using h.2.2.2⟩

/-- C7 (amended).  The Reset action sets the session stage back to SETUP and
changes nothing else: committed measurements, the `isHardwareLocked` flag
(which is NOT cleared), the reference white, the stream, the sample history
and the live reading all keep their values. -/
theorem resetAction_contract (st : SensorState) :
    (resetAction st).calibrationStage = .SETUP ∧
    (resetAction st).committedMeasurements = st.committedMeasurements ∧
    (resetAction st).isHardwareLocked = st.isHardwareLocked ∧
    (resetAction st).referenceWhite = st.referenceWhite ∧
    (resetAction st).stream = st.stream ∧
    (resetAction st).history = st.history ∧
    (resetAction st).measuredRGB = st.measuredRGB :=
  ⟨rfl, rfl, rfl, rfl, rfl, rfl, rfl⟩

/-- A hardware-locked measuring session. -/
def measuringLockedState : SensorState :=
  { lockState with calibrationStage := .MEASURING, isHardwareLocked := true }

/-- Counterexample to C7 as stated: Reset from a locked MEASURING session
returns to SETUP but leaves `isHardwareLocked = true` — the flag is not
cleared. -/
theorem resetAction_keeps_hardware_lock :
    (resetAction measuringLockedState).calibrationStage = .SETUP ∧
    (resetAction measuringLockedState).isHardwareLocked = true :=
  ⟨rfl, rfl⟩

/-- C8 fails on the code: after mount, stream acquisition and unmount, the
session's track is still running — the `[]`-effect cleanup closed over the
initial `stream = null`, so `stopCamera` stops nothing. -/
theorem sensorCameraLifecycle_stops_no_tracks :
    sensorCameraLifecycle [⟨0, false⟩] = [⟨0, false⟩] ∧
    ¬ ∀ t ∈ sensorCameraLifecycle [⟨0, false⟩], t.stopped = true := by
  refine ⟨rfl, fun h => ?_⟩
  have := h ⟨0, false⟩ (List.mem_singleton_self _)
  simp at this

/-! ## The analysis-oracle wrapper (`geminiService.ts`) -/

/-- The observable outcome of the `ai.models.generateContent` call: the
promise rejects, or resolves with a response whose `text` field may be
absent. -/
inductive OracleOutcome where
  | throws
  | replied (text : Option (List ℕ))
deriving DecidableEq

/-- The `fallbackResult` defined at the top of `analyzeCalibration`.
`parseFloat` abstracts the platform's number parsing of the settings string
(`none` = `NaN`); `parseFloat(settings.targetGamma) || 2.2` falls back to
2.2 on the falsy values `NaN` and `0`. -/
def fallbackResult (settings : CalibrationSettings)
    (parseFloat : List ℕ → Option ℚ) : CalibrationResult :=
  { profileName := strUnits "Basic Profile (Offline Mode)"
    gamma :=
      match parseFloat settings.targetGamma with
      | some q => if q = 0 then 2.2 else q
      | none => 2.2
    colorTemperature := strUnits "Uncalibrated"
    deltaE := 0
    redGain := 1.0
    greenGain := 1.0
    blueGain := 1.0
    contrastRatioVal := strUnits "N/A"
    feedback := strUnits "Connection to AI service failed or API Key is missing. This is a generic fallback profile. Please check your network connection and API configuration." }

/-- `analyzeCalibration`.  The measurement payload and prompt (lines 54–75 of
the source) only shape the oracle's input, which is abstracted by `outcome`;
`parsePayload` abstracts `JSON.parse` after the markdown-fence cleanup
(`none` = the parse throws).  Inside the `try`: a missing (empty) API key
returns the fallback; a truthy `response.text` is cleaned, parsed and
returned; a falsy one raises, and the `catch` returns the fallback on any
error (network, key, parsing). -/
def analyzeCalibration (apiKey : List ℕ) (measurements : List MeasurementPoint)
    (settings : CalibrationSettings) (parseFloat : List ℕ → Option ℚ)
    (outcome : OracleOutcome)
    (parsePayload : List ℕ → Option CalibrationResult) : CalibrationResult :=
  let fallback := fallbackResult settings parseFloat
  let _measurementData := measurements.map
    (fun m => (m.label, m.targetColor, m.measuredColor))
  if apiKey.length = 0 then fallback
  else
    match outcome with
    | .throws => fallback
    | .replied none => fallback
    | .replied (some text) =>
      if text.length = 0 then fallback
      else
        match parsePayload text with
        | some r => r
        | none => fallback

/-- C5.  `analyzeCalibration` is total — it never hands its caller an absent
result or an exception — and whenever the API key is missing, the oracle call
throws, or the response carries no parseable payload, it returns the defined
fallback: neutral gains 1.0, the parsed requested gamma (2.2 when parsing
fails), and profile-name / feedback text indicating offline-fallback mode. -/
theorem analyzeCalibration_fallback_on_failure (apiKey : List ℕ)
    (measurements : List MeasurementPoint) (settings : CalibrationSettings)
    (parseFloat : List ℕ → Option ℚ) (outcome : OracleOutcome)
    (parsePayload : List ℕ → Option CalibrationResult)
    (hfail : apiKey = [] ∨ outcome = .throws ∨ outcome = .replied none ∨
      outcome = .replied (some []) ∨
      ∃ t, outcome = .replied (some t) ∧ parsePayload t = none) :
    analyzeCalibration apiKey measurements settings parseFloat outcome parsePayload
      = fallbackResult settings parseFloat ∧
    (fallbackResult settings parseFloat).redGain = 1 ∧
    (fallbackResult settings parseFloat).greenGain = 1 ∧
    (fallbackResult settings parseFloat).blueGain = 1 ∧
    (parseFloat settings.targetGamma = none →
      (fallbackResult settings parseFloat).gamma = 2.2) ∧
    (∀ q, parseFloat settings.targetGamma = some q → q ≠ 0 →
      (fallbackResult settings parseFloat).gamma = q) ∧
    (fallbackResult settings parseFloat).profileName =
      strUnits "Basic Profile (Offline Mode)" ∧
    (fallbackResult settings parseFloat).feedback =
      strUnits "Connection to AI service failed or API Key is missing. This is a generic fallback profile. Please check your network connection and API configuration." := by
  refine ⟨?_, by norm_num [fallbackResult], by norm_num [fallbackResult],
    by norm_num [fallbackResult], ?_, ?_, rfl, rfl⟩
  · rcases hfail with rfl | rfl | rfl | rfl | ⟨t, rfl, hp⟩
    · simp [analyzeCalibration]
    · simp only [analyzeCalibration]
      split_ifs <;> rfl
    · simp only [analyzeCalibration]
      split_ifs <;> rfl
    · simp only [analyzeCalibration]
      split_ifs with h1 h2
      · rfl
      · rfl
      · simp at h2
    · simp only [analyzeCalibration]
      split_ifs with h1 h2
      · rfl
      · rfl
      · rw [hp]
  · intro h
    simp [fallbackResult, h]
  · intro q hq hq0
    simp [fallbackResult, hq, hq0]

/-- Concrete settings for the fallback witness. -/
def witnessSettings : CalibrationSettings :=
  ⟨strUnits "2.2", strUnits "D65 (6500K)"⟩

/-- A concrete parse of the settings gamma string. -/
def witnessParseFloat : List ℕ → Option ℚ := fun _ => some 2.2

/-- Witness for C5: with the API key missing the call returns exactly the
fallback result, whose red gain is 1. -/
theorem analyzeCalibration_fallback_witness :
    analyzeCalibration [] [] witnessSettings witnessParseFloat .throws
        (fun _ => none) = fallbackResult witnessSettings witnessParseFloat ∧
    (fallbackResult witnessSettings witnessParseFloat).redGain = 1 :=
  ⟨(analyzeCalibration_fallback_on_failure [] [] witnessSettings witnessParseFloat
      .throws (fun _ => none) (Or.inl rfl)).1,
   (analyzeCalibration_fallback_on_failure [] [] witnessSettings witnessParseFloat
      .throws (fun _ => none) (Or.inl rfl)).2.1⟩

/-! ## The measurement wizard (`PatternGenerator.tsx`) -/

/-- `parseInt(x) || dflt`: `parseInt` yields `NaN` on empty or non-numeric
input (modelled as `none`), and `NaN`, `0` and `-0` are all falsy, so those
entries are replaced by the default. -/
def jsOrInt (parsed : Option ℤ) (dflt : ℤ) : ℤ :=
  match parsed with
  | some v => if v = 0 then dflt else v
  | none => dflt

/-- The manual R/G/B entries at one wizard step, as `parseInt` results. -/
structure ManualInput where
  manualR : Option ℤ
  manualG : Option ℤ
  manualB : Option ℤ
deriving DecidableEq, Repr

/-- The wizard's React state: `currentIndex` and the working copy
`measurements` (initialised as `[...points]`). -/
structure WizardState where
  currentIndex : ℕ
  measurements : List MeasurementPoint
deriving DecidableEq, Repr

/-- The `getD` default below; the wizard keeps `currentIndex < points.length`
on every run considered here — out of range, `points[currentIndex]` would be
`undefined` in the source and the handler would throw on `.targetColor`. -/
def defaultPoint : MeasurementPoint := ⟨[], ⟨0, 0, 0⟩, none⟩

/-- `handleNext`: read the three manual entries with the active patch's
target channels as fallbacks, store
`{...currentPoint, measuredColor: {r, g, b}}` at `currentIndex`, then either
advance to the next patch or — at the last patch — fire `onComplete` with the
updated list (returned as the `some` component). -/
def handleNext (points : List MeasurementPoint) (st : WizardState)
    (inp : ManualInput) : WizardState × Option (List MeasurementPoint) :=
  let currentPoint := points.getD st.currentIndex defaultPoint
  let r := jsOrInt inp.manualR currentPoint.targetColor.r
  let g := jsOrInt inp.manualG currentPoint.targetColor.g
  let b := jsOrInt inp.manualB currentPoint.targetColor.b
  let updated := st.measurements.set st.currentIndex
    { currentPoint with measuredColor := some ⟨r, g, b⟩ }
  if st.currentIndex < points.length - 1 then
    ({ currentIndex := st.currentIndex + 1, measurements := updated }, none)
  else
    ({ st with measurements := updated }, some updated)

/-- One `handleNext` per user input; the run stops when `onComplete` fires
(the host unmounts the wizard). -/
def runWizard (points : List MeasurementPoint) :
    List ManualInput → WizardState → WizardState × Option (List MeasurementPoint)
  | [], st => (st, none)
  | inp :: rest, st =>
    match handleNext points st inp with
    | (stNext, some out) => (stNext, some out)
    | (stNext, none) => runWizard points rest stNext

/-- The committed entry for patch `i`: the original point with its measured
color filled in from the manual entries of some step. -/
def committedEntry (points : List MeasurementPoint) (i : ℕ) (c : RGB) :
    MeasurementPoint :=
  { points.getD i defaultPoint with measuredColor := some c }

/-- The color `handleNext` commits at patch `i` from the manual entries. -/
def committedColor (points : List MeasurementPoint) (i : ℕ) (inp : ManualInput) :
    RGB :=
  ⟨jsOrInt inp.manualR (points.getD i defaultPoint).targetColor.r,
   jsOrInt inp.manualG (points.getD i defaultPoint).targetColor.g,
   jsOrInt inp.manualB (points.getD i defaultPoint).targetColor.b⟩

theorem runWizard_spec (points : List MeasurementPoint) :
    ∀ (inputs : List ManualInput) (k : ℕ) (meas : List MeasurementPoint),
    k < points.length →
    inputs.length + k = points.length →
    meas.length = points.length →
    ∃ out, (runWizard points inputs ⟨k, meas⟩).2 = some out ∧
      out.length = points.length ∧
      (∀ i, i < k → out[i]? = meas[i]?) ∧
      (∀ i, k ≤ i → i < points.length →
        ∃ c, out[i]? = some (committedEntry points i c)) := by
  intro inputs
  induction inputs with
  | nil =>
    intro k meas hk hlen _
    simp only [List.length_nil] at hlen
    omega
  | cons inp rest ih =>
    intro k meas hk hlen hmeas
    simp only [List.length_cons] at hlen
    by_cases hlast : k < points.length - 1
    · -- not the last patch: advance and recurse
      have hstep : runWizard points (inp :: rest) ⟨k, meas⟩ =
          runWizard points rest
            ⟨k + 1, meas.set k (committedEntry points k (committedColor points k inp))⟩ := by
        simp only [runWizard, handleNext, committedEntry, committedColor,
          if_pos hlast]
      obtain ⟨out, hout, holen, hlow, hhigh⟩ := ih (k + 1)
        (meas.set k (committedEntry points k (committedColor points k inp)))
        (by omega) (by omega) (by rw [List.length_set]; exact hmeas)
      refine ⟨out, by rw [hstep]; exact hout, holen, ?_, ?_⟩
      · intro i hi
        rw [hlow i (by omega), List.getElem?_set_ne (by omega)]
      · intro i hki hilt
        by_cases heq : i = k
        · subst heq
          refine ⟨committedColor points i inp, ?_⟩
          rw [hlow i (by omega), List.getElem?_set_self',
            List.getElem?_eq_getElem (show i < meas.length by omega)]
          rfl
        · exact hhigh i (by omega) hilt
    · -- the last patch: `onComplete` fires with the updated list
      refine ⟨meas.set k (committedEntry points k (committedColor points k inp)),
        ?_, ?_, ?_, ?_⟩
      · simp only [runWizard, handleNext, committedEntry, committedColor,
          if_neg hlast]
      · rw [List.length_set]
        exact hmeas
      · intro i hi
        rw [List.getElem?_set_ne (by omega)]
      · intro i hki hilt
        have : i = k := by omega
        subst this
        refine ⟨committedColor points i inp, ?_⟩
        rw [List.getElem?_set_self', List.getElem?_eq_getElem (by omega)]
        rfl

/-- C9.  For every non-empty target-patch list, advancing through every patch
(one `handleNext` per patch) completes the wizard with a list of the same
length and order as the input: entry `i` is exactly input entry `i` — same
label and same `targetColor` — with its `measuredColor` populated. -/
theorem runWizard_completes (points : List MeasurementPoint)
    (inputs : List ManualInput) (hne : points ≠ [])
    (hlen : inputs.length = points.length) :
    ∃ out, (runWizard points inputs ⟨0, points⟩).2 = some out ∧
      out.length = points.length ∧
      (∀ i, i < points.length →
        ∃ c, out[i]? = some (committedEntry points i c)) := by
  have hpos : 0 < points.length := List.length_pos.mpr hne
  obtain ⟨out, hout, holen, _, hhigh⟩ := runWizard_spec points inputs 0 points
    hpos (by omega) rfl
  exact ⟨out, hout, holen, fun i hi => hhigh i (Nat.zero_le i) hi⟩

/-- Concrete two-patch run for the C9 witness. -/
def witnessPoints : List MeasurementPoint :=
  [⟨strUnits "Reference White (Lock Exposure)", ⟨255, 255, 255⟩, none⟩,
   ⟨strUnits "Red Reference", ⟨255, 0, 0⟩, none⟩]

/-- Concrete manual entries: one measured reading, one left empty. -/
def witnessInputs : List ManualInput :=
  [⟨some 250, some 252, some 248⟩, ⟨none, none, none⟩]

/-- Witness for C9: the concrete two-patch run completes with both entries
committed. -/
theorem runWizard_completes_witness :
    ∃ out, (runWizard witnessPoints witnessInputs ⟨0, witnessPoints⟩).2 = some out ∧
      out.length = witnessPoints.length ∧
      (∀ i, i < witnessPoints.length →
        ∃ c, out[i]? = some (committedEntry witnessPoints i c)) :=
  runWizard_completes witnessPoints witnessInputs (by decide) rfl

/-- C10.  In `handleNext`, a manual channel entry that is empty (`NaN`) or
parses to 0 is silently replaced by the active patch's target value for that
channel; consequently the committed `measuredColor` channel can be 0 only
when the corresponding `targetColor` channel is 0, so a genuine reading of 0
on a channel with a non-zero target can never be recorded. -/
theorem handleNext_zero_channel_conflation (points : List MeasurementPoint)
    (st : WizardState) (inp : ManualInput)
    (hidx : st.currentIndex < points.length)
    (hlen : st.measurements.length = points.length) :
    ∃ c : RGB,
      (handleNext points st inp).1.measurements[st.currentIndex]? =
        some (committedEntry points st.currentIndex c) ∧
      ((inp.manualR = none ∨ inp.manualR = some 0) →
        c.r = (points.getD st.currentIndex defaultPoint).targetColor.r) ∧
      ((inp.manualG = none ∨ inp.manualG = some 0) →
        c.g = (points.getD st.currentIndex defaultPoint).targetColor.g) ∧
      ((inp.manualB = none ∨ inp.manualB = some 0) →
        c.b = (points.getD st.currentIndex defaultPoint).targetColor.b) ∧
      (c.r = 0 → (points.getD st.currentIndex defaultPoint).targetColor.r = 0) ∧
      (c.g = 0 → (points.getD st.currentIndex defaultPoint).targetColor.g = 0) ∧
      (c.b = 0 → (points.getD st.currentIndex defaultPoint).targetColor.b = 0) := by
  have hset : (handleNext points st inp).1.measurements =
      st.measurements.set st.currentIndex
        (committedEntry points st.currentIndex
          (committedColor points st.currentIndex inp)) := by
    simp only [handleNext, committedEntry, committedColor]
    split_ifs <;> rfl
  refine ⟨committedColor points st.currentIndex inp, ?_, ?_, ?_, ?_, ?_, ?_, ?_⟩
  · rw [hset, List.getElem?_set_self', List.getElem?_eq_getElem (by omega)]
    rfl
  · rintro (h | h) <;> simp [committedColor, jsOrInt, h]
  · rintro (h | h) <;> simp [committedColor, jsOrInt, h]
  · rintro (h | h) <;> simp [committedColor, jsOrInt, h]
  · intro h
    rcases hr : inp.manualR with _ | v
    · simpa [committedColor, jsOrInt, hr] using h
    · simp only [committedColor, jsOrInt, hr] at h
      by_cases hv : v = 0
      · rwa [if_pos hv] at h
      · rw [if_neg hv] at h
        exact absurd h hv
  · intro h
    rcases hg : inp.manualG with _ | v
    · simpa [committedColor, jsOrInt, hg] using h
    · simp only [committedColor, jsOrInt, hg] at h
      by_cases hv : v = 0
      · rwa [if_pos hv] at h
      · rw [if_neg hv] at h
        exact absurd h hv
  · intro h
    rcases hb : inp.manualB with _ | v
    · simpa [committedColor, jsOrInt, hb] using h
    · simp only [committedColor, jsOrInt, hb] at h
      by_cases hv : v = 0
      · rwa [if_pos hv] at h
      · rw [if_neg hv] at h
        exact absurd h hv

/-- Witness for C10: at the red patch with an empty red entry and a zero
green entry, the committed color inherits the targets. -/
theorem handleNext_zero_channel_witness :
    ∃ c : RGB,
      (handleNext witnessPoints ⟨1, witnessPoints⟩
          ⟨none, some 0, some 7⟩).1.measurements[1]? =
        some (committedEntry witnessPoints 1 c) ∧
      ((ManualInput.mk none (some 0) (some 7)).manualR = none ∨
        (ManualInput.mk none (some 0) (some 7)).manualR = some 0 →
        c.r = (witnessPoints.getD 1 defaultPoint).targetColor.r) ∧
      ((ManualInput.mk none (some 0) (some 7)).manualG = none ∨
        (ManualInput.mk none (some 0) (some 7)).manualG = some 0 →
        c.g = (witnessPoints.getD 1 defaultPoint).targetColor.g) ∧
      ((ManualInput.mk none (some 0) (some 7)).manualB = none ∨
        (ManualInput.mk none (some 0) (some 7)).manualB = some 0 →
        c.b = (witnessPoints.getD 1 defaultPoint).targetColor.b) ∧
      (c.r = 0 → (witnessPoints.getD 1 defaultPoint).targetColor.r = 0) ∧
      (c.g = 0 → (witnessPoints.getD 1 defaultPoint).targetColor.g = 0) ∧
      (c.b = 0 → (witnessPoints.getD 1 defaultPoint).targetColor.b = 0) :=
  handleNext_zero_channel_conflation witnessPoints ⟨1, witnessPoints⟩
    ⟨none, some 0, some 7⟩ (by decide) rfl

end ChromaCal
